import Mathlib

/-!
Verification of the snake game core (`src/snakegame/main.c`).

The C program keeps the snake body in two parallel dynamic arrays
`int *x`, `int *y` together with an `int length` field; coordinates are C
`int`s, modelled here as `Int` (no claim depends on 32-bit overflow).
We model a body segment as a pair of integers and the body as a list of
segments in the same order (index 0 = head), with `length` the list length,
which the C code keeps in sync with the arrays at every call site.
-/

/-- A body segment coordinate: the pair `(x[i], y[i])` of the C arrays. -/
structure Pos where
  x : Int
  y : Int
deriving DecidableEq, Repr

/-- The `Direction` enum of the C source: `DIR_UP, DIR_DOWN, DIR_LEFT, DIR_RIGHT`. -/
inductive Direction where
  | DIR_UP
  | DIR_DOWN
  | DIR_LEFT
  | DIR_RIGHT
deriving DecidableEq, Repr

/-- The `Snake` struct: the two parallel coordinate arrays fused into one
list of segments; the C `length` field is the list length. -/
structure Snake where
  segs : List Pos
deriving DecidableEq, Repr

/-- The C `length` field: number of stored segments. -/
def Snake.length (s : Snake) : Nat := s.segs.length

/-- The C constant `INITIAL_SNAKE_LENGTH` (value 5). -/
def INITIAL_SNAKE_LENGTH : Nat := 5

/-- The C constant `EXTEND_INTERVAL` (value 5, seconds). -/
def EXTEND_INTERVAL : Int := 5

/-- ncurses key code `KEY_UP` (octal 0403). -/
def KEY_UP : Int := 259

/-- ncurses key code `KEY_DOWN` (octal 0402). -/
def KEY_DOWN : Int := 258

/-- ncurses key code `KEY_LEFT` (octal 0404). -/
def KEY_LEFT : Int := 260

/-- ncurses key code `KEY_RIGHT` (octal 0405). -/
def KEY_RIGHT : Int := 261

/-- The function `get_new_direction` (main.c lines 82-96): maps the pending input
character to a direction; any other character (including ncurses `ERR = -1`
when no key is pending) keeps the current direction. -/
def get_new_direction (ch : Int) (current_direction : Direction) : Direction :=
  if ch = KEY_UP then Direction.DIR_UP
  else if ch = KEY_DOWN then Direction.DIR_DOWN
  else if ch = KEY_LEFT then Direction.DIR_LEFT
  else if ch = KEY_RIGHT then Direction.DIR_RIGHT
  else current_direction

/-- The head update of `update_snake` (main.c lines 115-128): the switch on
`direction` applied to segment 0. -/
def moveHead (p : Pos) (direction : Direction) : Pos :=
  match direction with
  | Direction.DIR_UP => { p with y := p.y - 1 }
  | Direction.DIR_DOWN => { p with y := p.y + 1 }
  | Direction.DIR_LEFT => { p with x := p.x - 1 }
  | Direction.DIR_RIGHT => { p with x := p.x + 1 }

/-- The function `update_snake` (main.c lines 107-129).  The shift loop
`for (i = length-1; i > 0; i--) { x[i] = x[i-1]; y[i] = y[i-1]; }`
turns the array `a` into `a[0], a[0], a[1], ..., a[length-2]`, i.e. old
segment 0 followed by the old array with its last element dropped; the
switch then applies the direction's unit delta to segment 0.  On an empty
body the loop does not run (and the C head write would be out of bounds);
the game only ever calls this with `length >= 1`. -/
def update_snake (s : Snake) (direction : Direction) : Snake :=
  match s.segs with
  | [] => s
  | h :: t => ⟨moveHead h direction :: (h :: t).dropLast⟩

/-- The function `check_collision` (main.c lines 142-150): scans indices `1..length-1`
for a segment equal to segment 0. -/
def check_collision (s : Snake) : Bool :=
  match s.segs with
  | [] => false
  | h :: t => t.any (fun q => decide (q = h))

/-- The function `extend_snake` (main.c lines 160-171): writes a copy of segment
`length-1` at index `length` and increments `length`.  On an empty body the
C code would read index `-1`; the game only ever calls this with
`length >= 1`. -/
def extend_snake (s : Snake) : Snake :=
  match s.segs with
  | [] => s
  | h :: t => ⟨(h :: t) ++ [(h :: t).getLast (by simp)]⟩

/-- One coordinate of the wraparound step of `main` (lines 264-273): the C
code repeats this if-chain once for `x` against `max_x` and once for `y`
against `max_y`. -/
def wrap_coord (maxc c : Int) : Int :=
  if c ≤ 0 then maxc - 2
  else if c ≥ maxc - 1 then 1
  else c

/-- The wraparound step of the game loop (main.c lines 263-273): applied to
segment 0 only, `x` against `max_x` and `y` against `max_y`. -/
def wrap_head (max_x max_y : Int) (s : Snake) : Snake :=
  match s.segs with
  | [] => s
  | h :: t => ⟨⟨wrap_coord max_x h.x, wrap_coord max_y h.y⟩ :: t⟩

/-- The snake initialisation in `main` (lines 236-243):
`x[i] = max_x/2 + i; y[i] = max_y/2` for `i < INITIAL_SNAKE_LENGTH`. -/
def init_snake (max_x max_y : Int) : Snake :=
  ⟨(List.range INITIAL_SNAKE_LENGTH).map
    (fun i => ⟨max_x / 2 + (i : Int), max_y / 2⟩)⟩

/-- The mutable locals of the game loop in `main`: the snake, the current
direction, the last-extend timestamp and the game-over flag, plus a
`running` flag recording whether the loop has been left by `break`. -/
structure GameState where
  snake : Snake
  current_direction : Direction
  last_extend_time : Int
  game_over : Bool
  running : Bool
deriving Repr

/-- The per-tick external inputs of the game loop: the character read at
the top of the loop (quit check), the wall-clock time sampled by
`time(NULL)`, and the character read by `get_new_direction` at the bottom. -/
structure TickInput where
  quitCh : Int
  now : Int
  dirCh : Int
deriving Repr

/-- ASCII code of the quit key `'q'`. -/
def qKey : Int := 113

/-- One iteration of the game loop in `main` (lines 248-304): quit check,
`update_snake`, wraparound, `check_collision` (break with `game_over` on
collision, before the growth check), growth timer (`extend_snake` when
`now - last_extend_time >= EXTEND_INTERVAL`), then `get_new_direction`.
Drawing and sleeping do not touch the game state and are omitted. -/
def tick (max_x max_y : Int) (gs : GameState) (inp : TickInput) : GameState :=
  if ¬ gs.running then gs
  else if inp.quitCh = qKey then { gs with running := false }
  else
    let s1 := wrap_head max_x max_y (update_snake gs.snake gs.current_direction)
    if check_collision s1 then
      { gs with snake := s1, game_over := true, running := false }
    else
      let grow := inp.now - gs.last_extend_time ≥ EXTEND_INTERVAL
      { snake := if grow then extend_snake s1 else s1
        current_direction := get_new_direction inp.dirCh gs.current_direction
        last_extend_time := if grow then inp.now else gs.last_extend_time
        game_over := false
        running := true }

/-- The state at loop entry in `main`: snake freshly initialised,
direction `DIR_LEFT`, `last_extend_time` the startup time, loop running. -/
def init_state (max_x max_y t0 : Int) : GameState :=
  { snake := init_snake max_x max_y
    current_direction := Direction.DIR_LEFT
    last_extend_time := t0
    game_over := false
    running := true }

/-- Running the game loop over a list of per-tick inputs. -/
def run (max_x max_y : Int) (gs : GameState) (inputs : List TickInput) : GameState :=
  inputs.foldl (tick max_x max_y) gs

/-- Statement apparatus for the reversal claim: the opposite of a
direction. -/
def oppositeDir : Direction → Direction
  | Direction.DIR_UP => Direction.DIR_DOWN
  | Direction.DIR_DOWN => Direction.DIR_UP
  | Direction.DIR_LEFT => Direction.DIR_RIGHT
  | Direction.DIR_RIGHT => Direction.DIR_LEFT

/-- Statement apparatus for the reversal claim: one cell opposite to the
direction of travel `d`. -/
def backStep (d : Direction) (p : Pos) : Pos := moveHead p (oppositeDir d)

/-- Statement apparatus for the reversal claim: a straight-line snake of
`n` segments travelling in direction `d`, segment `i` sitting `i` cells
opposite to the travel direction from the head. -/
def straightSnake (head : Pos) (d : Direction) (n : Nat) : Snake :=
  ⟨(List.range n).map (fun i => (backStep d)^[i] head)⟩

/-- Formalisation of the claim phrase "the body is centered in the screen
width" for a horizontal run occupying columns `lo..hi` of a screen whose
columns are `0..max_x-1`: the gap between the left screen edge and the
leftmost occupied column differs from the gap between the rightmost
occupied column and the right screen edge by at most one cell (exact
equality is impossible when the parities of width and body length differ). -/
def centeredInWidth (max_x lo hi : Int) : Prop :=
  |lo - (max_x - 1 - hi)| ≤ 1

/-- Unfolding lemma: `update_snake` on a non-empty body. -/
theorem update_snake_cons (h : Pos) (t : List Pos) (d : Direction) :
    update_snake ⟨h :: t⟩ d = ⟨moveHead h d :: (h :: t).dropLast⟩ := rfl

/-- Helper: the collision scan answers true as soon as the head value
occurs among the body segments. -/
theorem check_collision_of_mem (h : Pos) (t : List Pos) (hm : h ∈ t) :
    check_collision ⟨h :: t⟩ = true := by
  simp only [check_collision, List.any_eq_true, decide_eq_true_eq]
  exact ⟨h, hm, rfl⟩

/-- Helper: the shift loop of `update_snake` preserves the length field. -/
theorem update_snake_length (s : Snake) (d : Direction) :
    (update_snake s d).length = s.length := by
  cases hs : s.segs with
  | nil => simp [update_snake, hs]
  | cons h t => simp [update_snake, hs, Snake.length]

/-- Helper: the wraparound step preserves the length field. -/
theorem wrap_head_length (max_x max_y : Int) (s : Snake) :
    (wrap_head max_x max_y s).length = s.length := by
  cases hs : s.segs with
  | nil => simp [wrap_head, hs]
  | cons h t => simp [wrap_head, hs, Snake.length]

/-- Helper: `extend_snake` adds exactly one segment to a non-empty body. -/
theorem extend_snake_length_pos (s : Snake) (h0 : 1 ≤ s.length) :
    (extend_snake s).length = s.length + 1 := by
  cases hs : s.segs with
  | nil => simp [Snake.length, hs] at h0
  | cons h t => simp [extend_snake, hs, Snake.length]

/-- C1: after `update_snake`, every body index `i` in `[1, length-1]` holds
the pre-move value of index `i-1`, and the head (index 0) is the old head
with exactly one unit applied for the direction: `y` decremented for Up,
`y` incremented for Down, `x` decremented for Left, `x` incremented for
Right, the other coordinate unchanged. -/
theorem update_snake_spec (s : Snake) (d : Direction) (h0 : 1 ≤ s.length) :
    (∀ i, 1 ≤ i → i < s.length →
      (update_snake s d).segs[i]? = s.segs[i - 1]?) ∧
    ∃ oldHead newHead,
      s.segs[0]? = some oldHead ∧
      (update_snake s d).segs[0]? = some newHead ∧
      (d = Direction.DIR_UP → newHead.x = oldHead.x ∧ newHead.y = oldHead.y - 1) ∧
      (d = Direction.DIR_DOWN → newHead.x = oldHead.x ∧ newHead.y = oldHead.y + 1) ∧
      (d = Direction.DIR_LEFT → newHead.y = oldHead.y ∧ newHead.x = oldHead.x - 1) ∧
      (d = Direction.DIR_RIGHT → newHead.y = oldHead.y ∧ newHead.x = oldHead.x + 1) := by
  cases hs : s.segs with
  | nil => simp [Snake.length, hs] at h0
  | cons h t =>
    have hlen : s.length = t.length + 1 := by simp [Snake.length, hs]
    have hupd : (update_snake s d).segs = moveHead h d :: (h :: t).dropLast := by
      have : update_snake s d = update_snake ⟨h :: t⟩ d := by rw [← hs]
      rw [this, update_snake_cons]
    constructor
    · intro i h1 hi
      obtain ⟨j, rfl⟩ : ∃ j, i = j + 1 := ⟨i - 1, by omega⟩
      rw [hupd, List.getElem?_cons_succ, List.getElem?_dropLast, if_pos (by simp; omega)]
      simp [hs]
    · refine ⟨h, moveHead h d, by simp [hs], by simp [hupd], ?_, ?_, ?_, ?_⟩ <;>
        cases d <;> simp [moveHead]

/-- Witness for C1 at a concrete snake of length 2 moving Up. -/
theorem update_snake_spec_witness :
    1 ≤ (Snake.mk [⟨3, 4⟩, ⟨5, 6⟩]).length ∧
    ((∀ i, 1 ≤ i → i < (Snake.mk [⟨3, 4⟩, ⟨5, 6⟩]).length →
      (update_snake (Snake.mk [⟨3, 4⟩, ⟨5, 6⟩]) Direction.DIR_UP).segs[i]? =
        (Snake.mk [⟨3, 4⟩, ⟨5, 6⟩]).segs[i - 1]?) ∧
    ∃ oldHead newHead,
      (Snake.mk [⟨3, 4⟩, ⟨5, 6⟩]).segs[0]? = some oldHead ∧
      (update_snake (Snake.mk [⟨3, 4⟩, ⟨5, 6⟩]) Direction.DIR_UP).segs[0]? = some newHead ∧
      (Direction.DIR_UP = Direction.DIR_UP →
        newHead.x = oldHead.x ∧ newHead.y = oldHead.y - 1) ∧
      (Direction.DIR_UP = Direction.DIR_DOWN →
        newHead.x = oldHead.x ∧ newHead.y = oldHead.y + 1) ∧
      (Direction.DIR_UP = Direction.DIR_LEFT →
        newHead.y = oldHead.y ∧ newHead.x = oldHead.x - 1) ∧
      (Direction.DIR_UP = Direction.DIR_RIGHT →
        newHead.y = oldHead.y ∧ newHead.x = oldHead.x + 1)) :=
  ⟨by decide, update_snake_spec (Snake.mk [⟨3, 4⟩, ⟨5, 6⟩]) Direction.DIR_UP (by decide)⟩

/-- C10: a snake of length 1 never reports a self-collision, whatever its
head coordinate. -/
theorem check_collision_single (s : Snake) (h1 : s.length = 1) :
    check_collision s = false := by
  cases hs : s.segs with
  | nil => simp [check_collision, hs]
  | cons h t =>
    have ht : t = [] := by
      have h2 := h1
      simp [Snake.length, hs] at h2
      exact h2
    simp [check_collision, hs, ht]

/-- Witness for C10 at the single-segment snake with head (7,7). -/
theorem check_collision_single_witness :
    (Snake.mk [⟨7, 7⟩]).length = 1 ∧ check_collision (Snake.mk [⟨7, 7⟩]) = false :=
  ⟨by decide, check_collision_single (Snake.mk [⟨7, 7⟩]) (by decide)⟩

/-- Helper: for a screen at least 4 cells wide in a dimension, the
wrapped coordinate is strictly interior: between 1 and `maxc - 2`. -/
theorem wrap_coord_bounds (maxc c : Int) (hm : 4 ≤ maxc) :
    1 ≤ wrap_coord maxc c ∧ wrap_coord maxc c ≤ maxc - 2 := by
  unfold wrap_coord
  split_ifs with h1 h2 <;> omega

/-- C2: wraparound touches the head only (the tail list is returned
unchanged), with the exact if-else thresholds of the source: a coordinate
at most 0 becomes `max - 2`; otherwise a coordinate at least `max - 1`
becomes 1; a head strictly inside both open intervals is unchanged; and at
the concrete bounds max_x = 20, max_y = 10, x = 0 wraps to 18, x = 19 to
1, y = 0 to 8 and y = 9 to 1. -/
theorem wrap_head_spec (max_x max_y : Int) (p : Pos) (t : List Pos) :
    (wrap_head max_x max_y ⟨p :: t⟩).segs =
      ⟨wrap_coord max_x p.x, wrap_coord max_y p.y⟩ :: t ∧
    (∀ maxc c, c ≤ 0 → wrap_coord maxc c = maxc - 2) ∧
    (∀ maxc c, ¬ c ≤ 0 → maxc - 1 ≤ c → wrap_coord maxc c = 1) ∧
    (∀ maxc c, ¬ c ≤ 0 → ¬ maxc - 1 ≤ c → wrap_coord maxc c = c) ∧
    (0 < p.x → p.x < max_x - 1 → 0 < p.y → p.y < max_y - 1 →
      wrap_head max_x max_y ⟨p :: t⟩ = ⟨p :: t⟩) ∧
    wrap_coord 20 0 = 18 ∧ wrap_coord 20 19 = 1 ∧
    wrap_coord 10 0 = 8 ∧ wrap_coord 10 9 = 1 := by
  refine ⟨rfl, ?_, ?_, ?_, ?_, by decide, by decide, by decide, by decide⟩
  · intro maxc c hc
    simp [wrap_coord, hc]
  · intro maxc c hc hm
    simp [wrap_coord, hc]
    omega
  · intro maxc c hc hm
    simp [wrap_coord, hc]
    omega
  · intro hx1 hx2 hy1 hy2
    have ex : wrap_coord max_x p.x = p.x := by unfold wrap_coord; split_ifs <;> omega
    have ey : wrap_coord max_y p.y = p.y := by unfold wrap_coord; split_ifs <;> omega
    simp [wrap_head, ex, ey]

/-- Witness for C2 at max_x = 20, max_y = 10 and an interior head (5,5)
with one tail segment. -/
theorem wrap_head_spec_witness :
    (wrap_head 20 10 ⟨[⟨5, 5⟩, ⟨6, 5⟩]⟩).segs =
      ⟨wrap_coord 20 5, wrap_coord 10 5⟩ :: [⟨6, 5⟩] ∧
    (∀ maxc c, c ≤ 0 → wrap_coord maxc c = maxc - 2) ∧
    (∀ maxc c, ¬ c ≤ 0 → maxc - 1 ≤ c → wrap_coord maxc c = 1) ∧
    (∀ maxc c, ¬ c ≤ 0 → ¬ maxc - 1 ≤ c → wrap_coord maxc c = c) ∧
    (0 < (5 : Int) → (5 : Int) < 20 - 1 → 0 < (5 : Int) → (5 : Int) < 10 - 1 →
      wrap_head 20 10 ⟨[⟨5, 5⟩, ⟨6, 5⟩]⟩ = ⟨[⟨5, 5⟩, ⟨6, 5⟩]⟩) ∧
    wrap_coord 20 0 = 18 ∧ wrap_coord 20 19 = 1 ∧
    wrap_coord 10 0 = 8 ∧ wrap_coord 10 9 = 1 :=
  wrap_head_spec 20 10 ⟨5, 5⟩ [⟨6, 5⟩]

/-- C7: after the wraparound step, on a screen at least 4 cells in each
dimension, the head is strictly interior: `1 ≤ x ≤ max_x - 2` and
`1 ≤ y ≤ max_y - 2`; it is never on a border coordinate (0 or max-1). -/
theorem wrap_head_interior (max_x max_y : Int) (s : Snake) (p : Pos) (t : List Pos)
    (hs : s.segs = p :: t) (hx : 4 ≤ max_x) (hy : 4 ≤ max_y) :
    ∃ q t', (wrap_head max_x max_y s).segs = q :: t' ∧
      1 ≤ q.x ∧ q.x ≤ max_x - 2 ∧ 1 ≤ q.y ∧ q.y ≤ max_y - 2 := by
  refine ⟨⟨wrap_coord max_x p.x, wrap_coord max_y p.y⟩, t, by simp [wrap_head, hs], ?_, ?_, ?_, ?_⟩
  · exact (wrap_coord_bounds max_x p.x hx).1
  · exact (wrap_coord_bounds max_x p.x hx).2
  · exact (wrap_coord_bounds max_y p.y hy).1
  · exact (wrap_coord_bounds max_y p.y hy).2

/-- Witness for C7 at max_x = 20, max_y = 10 and a head that just crossed
the left border (x = 0). -/
theorem wrap_head_interior_witness :
    (Snake.mk [⟨0, 5⟩] : Snake).segs = ⟨0, 5⟩ :: [] ∧ (4 : Int) ≤ 20 ∧ (4 : Int) ≤ 10 ∧
    ∃ q t', (wrap_head 20 10 (Snake.mk [⟨0, 5⟩])).segs = q :: t' ∧
      1 ≤ q.x ∧ q.x ≤ 20 - 2 ∧ 1 ≤ q.y ∧ q.y ≤ 10 - 2 :=
  ⟨rfl, by decide, by decide,
    wrap_head_interior 20 10 (Snake.mk [⟨0, 5⟩]) ⟨0, 5⟩ [] rfl (by decide) (by decide)⟩

/-- C3: the collision scan answers true exactly when some segment at an
index in `1..length-1` holds the head coordinate (index 0); the snake
(5,5),(6,5),(5,5) reports a collision, and a snake with pairwise-distinct
segments reports none. -/
theorem check_collision_spec (s : Snake) :
    (check_collision s = true ↔
      ∃ i, 1 ≤ i ∧ i < s.length ∧ s.segs[i]? = s.segs[0]?) ∧
    check_collision ⟨[⟨5, 5⟩, ⟨6, 5⟩, ⟨5, 5⟩]⟩ = true ∧
    (s.segs.Pairwise (fun a b => a ≠ b) → check_collision s = false) := by
  refine ⟨?_, by decide, ?_⟩
  · obtain ⟨l⟩ := s
    cases l with
    | nil =>
      simp [check_collision, Snake.length]
    | cons h t =>
      constructor
      · intro hcol
        simp only [check_collision, List.any_eq_true, decide_eq_true_eq] at hcol
        obtain ⟨q, hq, rfl⟩ := hcol
        obtain ⟨j, hj, hjq⟩ := List.getElem_of_mem hq
        refine ⟨j + 1, by omega, ?_, ?_⟩
        · show j + 1 < (q :: t).length
          simp
          omega
        · show (q :: t)[j + 1]? = (q :: t)[0]?
          rw [List.getElem?_cons_succ, List.getElem?_cons_zero,
              List.getElem?_eq_getElem hj, hjq]
      · rintro ⟨i, h1, hi, heq⟩
        obtain ⟨j, rfl⟩ : ∃ j, i = j + 1 := ⟨i - 1, by omega⟩
        have hi2 : j + 1 < (h :: t).length := hi
        have heq2 : (h :: t)[j + 1]? = (h :: t)[0]? := heq
        rw [List.getElem?_cons_succ, List.getElem?_cons_zero] at heq2
        have hjlen : j < t.length := by
          simp at hi2
          omega
        rw [List.getElem?_eq_getElem hjlen] at heq2
        have hmem : h ∈ t := by
          rw [← Option.some_inj.mp heq2]
          exact List.getElem_mem hjlen
        exact check_collision_of_mem h t hmem
  · intro hp
    obtain ⟨l⟩ := s
    cases l with
    | nil => rfl
    | cons h t =>
      have hp2 : (h :: t).Pairwise (fun a b => a ≠ b) := hp
      have hnot : ∀ q ∈ t, h ≠ q := (List.pairwise_cons.mp hp2).1
      show t.any (fun q => decide (q = h)) = false
      simp only [List.any_eq_false, decide_eq_true_eq]
      intro q hq hqh
      exact hnot q hq hqh.symm

/-- Witness for C3 at the pairwise-distinct snake (1,1),(2,2),(3,3). -/
theorem check_collision_spec_witness :
    (check_collision (Snake.mk [⟨1, 1⟩, ⟨2, 2⟩, ⟨3, 3⟩]) = true ↔
      ∃ i, 1 ≤ i ∧ i < (Snake.mk [⟨1, 1⟩, ⟨2, 2⟩, ⟨3, 3⟩]).length ∧
        (Snake.mk [⟨1, 1⟩, ⟨2, 2⟩, ⟨3, 3⟩]).segs[i]? =
          (Snake.mk [⟨1, 1⟩, ⟨2, 2⟩, ⟨3, 3⟩]).segs[0]?) ∧
    check_collision ⟨[⟨5, 5⟩, ⟨6, 5⟩, ⟨5, 5⟩]⟩ = true ∧
    ((Snake.mk [⟨1, 1⟩, ⟨2, 2⟩, ⟨3, 3⟩]).segs.Pairwise (fun a b => a ≠ b) →
      check_collision (Snake.mk [⟨1, 1⟩, ⟨2, 2⟩, ⟨3, 3⟩]) = false) :=
  check_collision_spec (Snake.mk [⟨1, 1⟩, ⟨2, 2⟩, ⟨3, 3⟩])

/-- C4: extending a non-empty snake appends exactly one segment equal to
the old tail, increments the length field by exactly 1, and leaves every
pre-existing segment unchanged. -/
theorem extend_snake_spec (s : Snake) (h0 : 1 ≤ s.length) :
    (extend_snake s).length = s.length + 1 ∧
    (∃ tl, s.segs.getLast? = some tl ∧ (extend_snake s).segs = s.segs ++ [tl]) ∧
    (∀ i, i < s.length → (extend_snake s).segs[i]? = s.segs[i]?) ∧
    (extend_snake s).segs[s.length]? = s.segs.getLast? := by
  obtain ⟨l⟩ := s
  cases l with
  | nil => simp [Snake.length] at h0
  | cons h t =>
    have hne : h :: t ≠ ([] : List Pos) := List.cons_ne_nil h t
    have hext : (extend_snake ⟨h :: t⟩).segs = (h :: t) ++ [(h :: t).getLast hne] := rfl
    have hlast : (Snake.mk (h :: t)).segs.getLast? = some ((h :: t).getLast hne) :=
      List.getLast?_eq_getLast_of_ne_nil hne
    refine ⟨?_, ⟨(h :: t).getLast hne, hlast, hext⟩, ?_, ?_⟩
    · simp [Snake.length, hext]
    · intro i hi
      have hi2 : i < (h :: t).length := hi
      rw [hext]
      exact List.getElem?_append_left hi2
    · rw [hext, hlast]
      exact List.getElem?_concat_length (h :: t) ((h :: t).getLast hne)

/-- Witness for C4 at the two-segment snake (1,2),(10,5). -/
theorem extend_snake_spec_witness :
    1 ≤ (Snake.mk [⟨1, 2⟩, ⟨10, 5⟩]).length ∧
    ((extend_snake (Snake.mk [⟨1, 2⟩, ⟨10, 5⟩])).length =
      (Snake.mk [⟨1, 2⟩, ⟨10, 5⟩]).length + 1 ∧
    (∃ tl, (Snake.mk [⟨1, 2⟩, ⟨10, 5⟩]).segs.getLast? = some tl ∧
      (extend_snake (Snake.mk [⟨1, 2⟩, ⟨10, 5⟩])).segs =
        (Snake.mk [⟨1, 2⟩, ⟨10, 5⟩]).segs ++ [tl]) ∧
    (∀ i, i < (Snake.mk [⟨1, 2⟩, ⟨10, 5⟩]).length →
      (extend_snake (Snake.mk [⟨1, 2⟩, ⟨10, 5⟩])).segs[i]? =
        (Snake.mk [⟨1, 2⟩, ⟨10, 5⟩]).segs[i]?) ∧
    (extend_snake (Snake.mk [⟨1, 2⟩, ⟨10, 5⟩])).segs[(Snake.mk [⟨1, 2⟩, ⟨10, 5⟩]).length]? =
      (Snake.mk [⟨1, 2⟩, ⟨10, 5⟩]).segs.getLast?) :=
  ⟨by decide, extend_snake_spec (Snake.mk [⟨1, 2⟩, ⟨10, 5⟩]) (by decide)⟩

/-- C9: the shift of `update_snake` and the wraparound never change the
length field; among the three snake operations only `extend_snake` does,
and by exactly one.  (In this embedding `check_collision` has type
`Snake → Bool`, so it cannot modify the snake at all, mirroring the C
function's read-only access.) -/
theorem frame_effects :
    (∀ s d, (update_snake s d).length = s.length) ∧
    (∀ max_x max_y s, (wrap_head max_x max_y s).length = s.length) ∧
    (∀ s, 1 ≤ s.length → (extend_snake s).length = s.length + 1) :=
  ⟨update_snake_length, wrap_head_length, extend_snake_length_pos⟩

/-- Witness for C9 at a concrete snake of length 1. -/
theorem frame_effects_witness :
    1 ≤ (Snake.mk [⟨2, 3⟩]).length ∧
    (extend_snake (Snake.mk [⟨2, 3⟩])).length = (Snake.mk [⟨2, 3⟩]).length + 1 ∧
    (update_snake (Snake.mk [⟨2, 3⟩]) Direction.DIR_DOWN).length = (Snake.mk [⟨2, 3⟩]).length :=
  ⟨by decide, frame_effects.2.2 (Snake.mk [⟨2, 3⟩]) (by decide),
    frame_effects.1 (Snake.mk [⟨2, 3⟩]) Direction.DIR_DOWN⟩

/-- Helper: `extend_snake` keeps the length (empty body) or adds one. -/
theorem extend_snake_length_cases (s : Snake) :
    (extend_snake s).length = s.length ∨ (extend_snake s).length = s.length + 1 := by
  obtain ⟨l⟩ := s
  cases l with
  | nil => exact Or.inl rfl
  | cons h t =>
    right
    show ((h :: t) ++ [(h :: t).getLast (by simp)]).length = (h :: t).length + 1
    simp

/-- Helper: across one tick the snake length stays equal or grows by one. -/
theorem tick_length (max_x max_y : Int) (gs : GameState) (inp : TickInput) :
    (tick max_x max_y gs inp).snake.length = gs.snake.length ∨
    (tick max_x max_y gs inp).snake.length = gs.snake.length + 1 := by
  have hww : ∀ (sn : Snake) (d : Direction),
      (wrap_head max_x max_y (update_snake sn d)).length = sn.length := by
    intro sn d
    rw [wrap_head_length, update_snake_length]
  by_cases h1 : gs.running
  · by_cases h2 : inp.quitCh = qKey
    · left
      simp [tick, h1, h2]
    · by_cases h3 : check_collision
          (wrap_head max_x max_y (update_snake gs.snake gs.current_direction))
      · left
        simp [tick, h1, h2, h3, hww]
      · by_cases h4 : inp.now - gs.last_extend_time ≥ EXTEND_INTERVAL
        · rcases extend_snake_length_cases
            (wrap_head max_x max_y (update_snake gs.snake gs.current_direction)) with hE | hE
          · left
            simp [tick, h1, h2, h3, h4, hE, hww]
          · right
            simp [tick, h1, h2, h3, h4, hE, hww]
        · left
          simp [tick, h1, h2, h3, h4, hww]
  · left
    simp [tick, h1]

/-- Helper: running the loop never shrinks the snake. -/
theorem run_length_le (max_x max_y : Int) (inputs : List TickInput) :
    ∀ gs : GameState, gs.snake.length ≤ (run max_x max_y gs inputs).snake.length := by
  induction inputs with
  | nil =>
    intro gs
    simp [run]
  | cons i rest ih =>
    intro gs
    have h1 := tick_length max_x max_y gs i
    have h2 := ih (tick max_x max_y gs i)
    have hr : run max_x max_y gs (i :: rest) = run max_x max_y (tick max_x max_y gs i) rest := rfl
    rw [hr]
    rcases h1 with h1 | h1 <;> omega

/-- C5: the snake starts at `INITIAL_SNAKE_LENGTH` = 5 segments; across any
single tick the length stays equal or grows by exactly one; and over any
run of the loop from the initial state the length stays at least 1 and
never decreases. -/
theorem snake_length_invariant (max_x max_y t0 : Int) (inputs : List TickInput) :
    INITIAL_SNAKE_LENGTH = 5 ∧
    (init_state max_x max_y t0).snake.length = INITIAL_SNAKE_LENGTH ∧
    (∀ gs inp, (tick max_x max_y gs inp).snake.length = gs.snake.length ∨
      (tick max_x max_y gs inp).snake.length = gs.snake.length + 1) ∧
    1 ≤ (run max_x max_y (init_state max_x max_y t0) inputs).snake.length ∧
    (∀ more, (run max_x max_y (init_state max_x max_y t0) inputs).snake.length ≤
      (run max_x max_y (init_state max_x max_y t0) (inputs ++ more)).snake.length) := by
  have h5 : (init_state max_x max_y t0).snake.length = INITIAL_SNAKE_LENGTH := rfl
  refine ⟨rfl, h5, fun gs inp => tick_length max_x max_y gs inp, ?_, ?_⟩
  · have hmono := run_length_le max_x max_y inputs (init_state max_x max_y t0)
    have h5n : (init_state max_x max_y t0).snake.length = 5 := h5
    omega
  · intro more
    have hsplit : run max_x max_y (init_state max_x max_y t0) (inputs ++ more) =
        run max_x max_y (run max_x max_y (init_state max_x max_y t0) inputs) more := by
      simp [run, List.foldl_append]
    rw [hsplit]
    exact run_length_le max_x max_y more _

/-- C6: the input mapper returns the mapped direction for each arrow key
unconditionally (no reversal guard) and keeps the current direction for
any other or absent input; and advancing a straight-line snake of length
at least 3 with the reversed direction (no wrap adjustment applying) makes
the collision check report a self-collision on that same tick. -/
theorem no_reversal_guard :
    (∀ cur, get_new_direction KEY_UP cur = Direction.DIR_UP) ∧
    (∀ cur, get_new_direction KEY_DOWN cur = Direction.DIR_DOWN) ∧
    (∀ cur, get_new_direction KEY_LEFT cur = Direction.DIR_LEFT) ∧
    (∀ cur, get_new_direction KEY_RIGHT cur = Direction.DIR_RIGHT) ∧
    (∀ ch cur, ch ≠ KEY_UP → ch ≠ KEY_DOWN → ch ≠ KEY_LEFT → ch ≠ KEY_RIGHT →
      get_new_direction ch cur = cur) ∧
    (∀ (head : Pos) (d : Direction) (n : Nat), 3 ≤ n →
      check_collision (update_snake (straightSnake head d n) (oppositeDir d)) = true) := by
  refine ⟨fun cur => by simp [get_new_direction, KEY_UP, KEY_DOWN, KEY_LEFT, KEY_RIGHT],
    fun cur => by simp [get_new_direction, KEY_UP, KEY_DOWN, KEY_LEFT, KEY_RIGHT],
    fun cur => by simp [get_new_direction, KEY_UP, KEY_DOWN, KEY_LEFT, KEY_RIGHT],
    fun cur => by simp [get_new_direction, KEY_UP, KEY_DOWN, KEY_LEFT, KEY_RIGHT],
    fun ch cur h1 h2 h3 h4 => by simp [get_new_direction, h1, h2, h3, h4],
    ?_⟩
  intro head d n hn
  obtain ⟨m, rfl⟩ : ∃ m, n = m + 3 := ⟨n - 3, by omega⟩
  set f : Nat → Pos := fun i => (backStep d)^[i] head with hf
  have hcons : (List.range (m + 3)).map f =
      f 0 :: ((List.range (m + 2)).map Nat.succ).map f := by
    rw [show m + 3 = (m + 2) + 1 from rfl, List.range_succ_eq_map, List.map_cons]
  have hS : straightSnake head d (m + 3) = ⟨f 0 :: ((List.range (m + 2)).map Nat.succ).map f⟩ :=
    congrArg Snake.mk hcons
  rw [hS, update_snake_cons]
  apply check_collision_of_mem
  have hhead : moveHead (f 0) (oppositeDir d) = f 1 := by
    show moveHead ((backStep d)^[0] head) (oppositeDir d) = (backStep d)^[1] head
    rw [Function.iterate_zero_apply, Function.iterate_one]
    rfl
  have hdrop : (f 0 :: ((List.range (m + 2)).map Nat.succ).map f).dropLast =
      (List.range (m + 2)).map f := by
    rw [← hcons, List.dropLast_eq_take, List.length_map, List.length_range,
      show m + 3 - 1 = m + 2 from rfl, ← List.map_take, List.take_range,
      show min (m + 2) (m + 3) = m + 2 from by omega]
  rw [hhead, hdrop]
  exact List.mem_map.mpr ⟨1, List.mem_range.mpr (by omega), rfl⟩

/-- Witness for C6: a snake of length 3 travelling Left, reversed to
Right, self-collides at once. -/
theorem no_reversal_guard_witness :
    3 ≤ 3 ∧
    check_collision
      (update_snake (straightSnake ⟨5, 5⟩ Direction.DIR_LEFT 3)
        (oppositeDir Direction.DIR_LEFT)) = true ∧
    get_new_direction (-1) Direction.DIR_LEFT = Direction.DIR_LEFT :=
  ⟨by decide, no_reversal_guard.2.2.2.2.2 ⟨5, 5⟩ Direction.DIR_LEFT 3 (by decide),
    no_reversal_guard.2.2.2.2.1 (-1) Direction.DIR_LEFT
      (by decide) (by decide) (by decide) (by decide)⟩

/-- C8 counterexample: at screen bounds max_x = 20, max_y = 10 the initial
snake occupies columns 10 through 14, leaving 10 empty columns to its left
but only 5 to its right, so the body is not centered in the screen width:
the source starts the run at column max_x/2 and extends it rightward. -/
theorem init_snake_not_centered :
    (init_snake 20 10).segs.map Pos.x = [10, 11, 12, 13, 14] ∧
    ¬ centeredInWidth 20 10 14 := by
  constructor
  · rfl
  · unfold centeredInWidth
    decide

/-- C8 (amended): at game start the snake has exactly `INITIAL_SNAKE_LENGTH`
= 5 segments, every segment lies on the middle row y = max_y/2, the x
coordinates form the contiguous run max_x/2, max_x/2 + 1, ...,
max_x/2 + 4 starting at the middle column and extending right (not a
centered placement), and the head is the segment at index 0, at column
max_x/2. -/
theorem init_snake_layout (max_x max_y : Int) :
    (init_snake max_x max_y).length = INITIAL_SNAKE_LENGTH ∧
    INITIAL_SNAKE_LENGTH = 5 ∧
    (∀ i : Nat, i < INITIAL_SNAKE_LENGTH →
      (init_snake max_x max_y).segs[i]? = some ⟨max_x / 2 + (i : Int), max_y / 2⟩) ∧
    (init_snake max_x max_y).segs[0]? = some ⟨max_x / 2, max_y / 2⟩ := by
  have hseg : ∀ i : Nat, i < INITIAL_SNAKE_LENGTH →
      (init_snake max_x max_y).segs[i]? = some ⟨max_x / 2 + (i : Int), max_y / 2⟩ := by
    intro i hi
    show ((List.range INITIAL_SNAKE_LENGTH).map
      (fun j : Nat => (⟨max_x / 2 + (j : Int), max_y / 2⟩ : Pos)))[i]? = _
    rw [List.getElem?_map, List.getElem?_range hi]
    rfl
  refine ⟨rfl, rfl, hseg, ?_⟩
  have h0 := hseg 0 (by decide)
  simpa using h0

/-- Witness for C8 (amended) at max_x = 20, max_y = 10 and index 2. -/
theorem init_snake_layout_witness :
    (2 : Nat) < INITIAL_SNAKE_LENGTH ∧
    (init_snake 20 10).segs[2]? = some ⟨20 / 2 + ((2 : Nat) : Int), 10 / 2⟩ :=
  ⟨by decide, (init_snake_layout 20 10).2.2.1 2 (by decide)⟩
